import Mathlib

/-!
Verification of the href-checker link validation engine.

The TypeScript source is shallowly embedded: browser interactions
(`page.goto`, `page.$eval`, URL parsing) are modelled as oracles passed in
explicitly, async generators become pure functions returning lists of the
entries they yield (plus an end marker recording whether the generator body
raised), and JS `Partial` record fields become `Option` fields.
-/

namespace HrefChecker

/-- A JavaScript `Error` value, identified by its message. -/
structure JsError where
  message : String
deriving DecidableEq

/-- The response object returned by `page.goto` when navigation completes
with a response (puppeteer `Response`). Carries the HTTP status code. -/
structure NavResponse where
  status : Nat
deriving DecidableEq

/-- Puppeteer `Response.ok()`: true when the HTTP status is in 200..299. -/
def NavResponse.ok (r : NavResponse) : Bool :=
  200 ≤ r.status && r.status ≤ 299

/-- Result of awaiting `page.goto(link, options)`: the promise either rejects
(navigation throws: timeout, DNS failure, TLS error, ...) or resolves with a
response object or with `null`. -/
inductive NavResult where
  | thrown (e : JsError)
  | completed (resp : Option NavResponse)
deriving DecidableEq

/-- The `output` field of `Entry` (src/unnamed/part_001 lines 29-33):
`Partial<{ pageExists: boolean; fragExists: boolean; error: Error }>`.
Note the type has exactly these three optional fields: in particular there is
no `status` field, although the README and the CLI formatters
(src/unnamed/part_003 `output.status`) refer to one. -/
structure Output where
  pageExists : Option Bool := none
  fragExists : Option Bool := none
  error : Option JsError := none
deriving DecidableEq

/-- `Entry.input` (src/unnamed/part_001 line 30): the link and its
occurrence count. -/
structure EntryInput where
  link : String
  count : Nat
deriving DecidableEq

/-- An entry before the category tag is attached by `checkLinks`. -/
structure BareEntry where
  input : EntryInput
  output : Output
deriving DecidableEq

/-- `Entry.type` (src/unnamed/part_001 line 32): the link category. -/
inductive EntryType where
  | samePage
  | sameSite
  | offSite
deriving DecidableEq

/-- `Entry` (src/unnamed/part_001 lines 29-33). -/
structure Entry where
  input : EntryInput
  output : Output
  type : EntryType
deriving DecidableEq

/-- The keys of the CLI `errorIf` / `warnIf` sets
(src/unnamed/part_003 lines 119-120): the three link categories plus the
virtual `fragments` category. -/
inductive PolicyKey where
  | samePage
  | sameSite
  | offSite
  | fragments
deriving DecidableEq

/-- The policy key corresponding to an entry's category
(`result.type` used directly as a set member in part_003). -/
def EntryType.key : EntryType → PolicyKey
  | .samePage => .samePage
  | .sameSite => .sameSite
  | .offSite => .offSite

/-- `ResultType` (src/unnamed/part_003 lines 156-161). -/
inductive ResultType where
  | ok
  | fail
  | warn
  | err
deriving DecidableEq

/-- `getResultType` (src/unnamed/part_003 lines 163-185). The `errorIf` and
`warnIf` sets are modelled as membership predicates. JS truthiness:
`if (error)` is `error` present; `!pageExists` is true when `pageExists` is
`false` or absent (`Option.getD false` negated); `fragExists === false` is
strict equality with `false`. -/
def getResultType (o : Output) (ty : EntryType)
    (errorIf warnIf : PolicyKey → Bool) : ResultType :=
  if o.error.isSome then
    .err
  else if (!(o.pageExists.getD false) && errorIf ty.key)
      || (o.fragExists == some false && errorIf .fragments) then
    .fail
  else if (!(o.pageExists.getD false) && warnIf ty.key)
      || (o.fragExists == some false && warnIf .fragments) then
    .warn
  else
    .ok

/-- The spec's per-category policy setting: `ignore`, `warn` or `err`. -/
inductive Policy where
  | ignore
  | warn
  | err
deriving DecidableEq

/-- The severity classifier written from the spec §4.4 rules verbatim, in
the spec's rule order, for comparison with `getResultType`:
1. error present → err; 2. pageExists == false and category policy err →
fail; 3. fragmentExists == false and fragments policy err → fail;
4. pageExists == false and category policy warn → warn; 5. fragmentExists
== false and fragments policy warn → warn; 6. otherwise ok. -/
def specSeverity (o : Output) (ty : EntryType)
    (policy : PolicyKey → Policy) : ResultType :=
  if o.error.isSome then .err
  else if o.pageExists == some false && policy ty.key == .err then .fail
  else if o.fragExists == some false && policy .fragments == .err then .fail
  else if o.pageExists == some false && policy ty.key == .warn then .warn
  else if o.fragExists == some false && policy .fragments == .warn then .warn
  else .ok

/-- Outputs emitted by the validators always carry `pageExists` unless they
carry `error` (proved below for both validators). -/
def Output.wf (o : Output) : Prop :=
  o.error = none → o.pageExists.isSome

/-! ## Deduplicator / Counter

`count` (src/unnamed/part_001 lines 159-166) builds a `Map<T, number>` by
iterating the raw list and incrementing per key. A JS `Map` preserves
insertion order, so it is embedded as an ordered association list:
incrementing an existing key updates it in place, a new key is appended
with count 1. -/

/-- One iteration of the loop body of `count`:
`counts.set(item, (counts.get(item) || 0) + 1)` on an insertion-ordered map. -/
def bump {α : Type} [DecidableEq α] : List (α × Nat) → α → List (α × Nat)
  | [], a => [(a, 1)]
  | (k, n) :: rest, a =>
    if k = a then (k, n + 1) :: rest else (k, n) :: bump rest a

/-- `count` (src/unnamed/part_001 lines 159-166). -/
def count {α : Type} [DecidableEq α] (items : List α) : List (α × Nat) :=
  items.foldl bump []

/-- `Map.get` with the non-null assertion `links.get(link)!` of part_001
line 123: value of the first (and only) matching key, 0 if absent. -/
def mapGet {α : Type} [DecidableEq α] : List (α × Nat) → α → Nat
  | [], _ => 0
  | (k, n) :: rest, a => if k = a then n else mapGet rest a

/-- First-occurrence deduplication, the specification-side description of a
JS `Map`'s key order: the key order of `count l` is proved equal to this. -/
def firstOccurrences {α : Type} [DecidableEq α] (l : List α) : List α :=
  l.foldl (fun acc a => if a ∈ acc then acc else acc ++ [a]) []

/-! ## Same-Page Validator -/

/-- `isFragmentValid` (src/unnamed/part_001 lines 127-135):
strips the leading `#` (`hash.replace(/^#/, "")`), builds the CSS selector
`[id=...], [name=...]` from the id, and runs `page.$eval` on it. The oracle
`query` models `page.$eval` applied to the id token: it resolves with the
truthiness of the matched element or rejects (puppeteer rejects both for an
invalid selector, e.g. a malformed id, and for a missing element).

The source reads `try { return page.$eval(selector, el => !!el); } catch {
return false; }` — the promise is returned WITHOUT `await`, and `$eval`,
being an async method, never throws synchronously, so the `catch` branch is
unreachable for query failures and a rejection is returned to the caller
unhandled. The embedding therefore passes the query result through. -/
def isFragmentValid (query : String → Except JsError Bool) (hash : String) :
    Except JsError Bool :=
  query (if hash.startsWith "#" then hash.drop 1 else hash)

/-- How an async generator's body ends: normally, or by raising an error
into its consumer. -/
inductive StreamEnd where
  | done
  | raised (e : JsError)
deriving DecidableEq

/-- `checkSamePageLinks` (src/unnamed/part_001 lines 101-107): for each
`[link, count]` of the map, skip links of length ≤ 1, otherwise
`await isFragmentValid(link, page)` — the await is NOT inside any try, so a
rejection aborts the generator (modelled by `StreamEnd.raised`, discarding
no entries already yielded). On success it yields
`{ input: { link, count }, output: { pageExists: true, fragExists } }`.
Note the function does not consult `options.fragments` at all. -/
def checkSamePageLinks (query : String → Except JsError Bool) :
    List (String × Nat) → List BareEntry × StreamEnd
  | [] => ([], .done)
  | (link, cnt) :: rest =>
    if link.length ≤ 1 then
      checkSamePageLinks query rest
    else
      match isFragmentValid query link with
      | .error e => ([], .raised e)
      | .ok b =>
        let tail := checkSamePageLinks query rest
        (⟨⟨link, cnt⟩, { pageExists := some true, fragExists := some b }⟩
            :: tail.1,
          tail.2)

/-! ## Off-Page Validator -/

/-- `Options` (src/unnamed/part_001 lines 3-16). The `puppeteer` sub-options
(timeout, waitUntil) only parameterize navigation and are absorbed into the
navigation oracles. -/
structure Options where
  samePage : Bool
  sameSite : Bool
  offSite : Bool
  fragments : Bool
deriving DecidableEq

/-- The browser-side behaviour relevant to validating one off-page link:
what `page.goto(link, options.puppeteer)` does, and what `page.$eval` on
the fragment id does on the page so loaded. -/
structure LinkWorld where
  nav : NavResult
  query : String → Except JsError Bool

/-- `!response || response.ok()` (src/unnamed/part_001 line 146). -/
def navPageExists : Option NavResponse → Bool
  | none => true
  | some r => r.ok

/-- `isLinkValid` (src/unnamed/part_001 lines 137-157). `hash` is
`new URL(link).hash` (empty string or a string starting with `#`).
The try block: navigate; on completion compute `pageExists`; when
`options.fragments && pageExists && url.hash && url.hash.length > 1`,
`await isFragmentValid(url.hash, page)` — this await IS inside the try, so
a rejected query is caught by `catch (error) { return { error }; }`, as is
a rejected navigation. The returned record carries only `pageExists` and
`fragExists` (no HTTP status is recorded). -/
def isLinkValid (opts : Options) (hash : String) (w : LinkWorld) : Output :=
  match w.nav with
  | .thrown e => { error := some e }
  | .completed resp =>
    let pageExists := navPageExists resp
    if opts.fragments && pageExists && !(hash == "") && 1 < hash.length then
      match isFragmentValid w.query hash with
      | .ok b => { pageExists := some pageExists, fragExists := some b }
      | .error e => { error := some e }
    else
      { pageExists := some pageExists }

/-- `checkOffPageLinks` (src/unnamed/part_001 lines 109-125):
`uniqueLinks = [...links.keys()]`, launch `isLinkValid` for every unique
link, then await and yield in index order:
`{ input: { link, count: links.get(link)! }, output: result }`.
The per-link browser behaviour and URL parsing are supplied by oracles
`world` and `hashOf` (`new URL(link).hash`). Exactly one `isLinkValid`
call is made per unique key. The denotation of launch-all-then-await-in-
order is the in-order list of results; its timing is modelled separately
by `emitTime`. -/
def checkOffPageLinks (opts : Options) (world : String → LinkWorld)
    (hashOf : String → String) (links : List (String × Nat)) :
    List BareEntry :=
  let uniqueLinks := links.map Prod.fst
  uniqueLinks.map fun link =>
    ⟨⟨link, mapGet links link⟩, isLinkValid opts (hashOf link) (world link)⟩

/-- Timing of the emission loop of `checkOffPageLinks` (src/unnamed/part_001
lines 117-124): every `isLinkValid` promise is started up front by
`uniqueLinks.map(...)`; promise `i` resolves at time `t[i]`; the loop awaits
`resultPromises[i]` in index order and yields entry `i` immediately after
that await, so entry `i` is emitted once all of `t[0..i]` have resolved:
at time `max t[0..i]`. -/
def emitTime (t : List Nat) (i : Nat) : Nat :=
  (t.take (i + 1)).foldl Nat.max 0

/-! ## checkLinks: seed navigation, extraction, merge, teardown -/

/-- Everything the browser and the seed page contribute to one run of
`checkLinks`: the seed navigation result, the three raw link lists that
`getSamePageLinks` / `getSameSiteLinks` / `getExternalLinks` extract from
the loaded page, the seed page's `$eval` behaviour (for same-page fragment
queries), the per-link behaviour of freshly opened pages, and URL parsing
(`new URL(link).hash`). -/
structure CheckWorld where
  seedNav : NavResult
  samePageLinks : List String
  sameSiteLinks : List String
  offSiteLinks : List String
  samePageQuery : String → Except JsError Bool
  linkWorld : String → LinkWorld
  urlHash : String → String

/-- The seed navigation check of `checkLinks` (src/unnamed/part_001 lines
47-51): `page.goto` may throw (rejection propagates into the try block), and
on completion `if (!response || !response.ok())` an Error
`Failed to navigate to <url><reason>` is thrown, where `reason` is
`. HTTP <status>` when a response object exists and the empty string
otherwise. -/
def seedCheck (url : String) : NavResult → Except JsError Unit
  | .thrown e => .error e
  | .completed none => .error ⟨"Failed to navigate to " ++ url⟩
  | .completed (some r) =>
    if r.ok then .ok ()
    else .error
      ⟨"Failed to navigate to " ++ url ++ ". HTTP " ++ toString r.status⟩

/-- The three deduplicated link maps of `getAllLinks`
(src/unnamed/part_001 lines 71-77): each category's raw list is extracted
only when its option is on, else the empty list is counted. -/
structure LinkMapSet where
  samePage : List (String × Nat)
  sameSite : List (String × Nat)
  offSite : List (String × Nat)

/-- `getAllLinks` (src/unnamed/part_001 lines 71-77). -/
def getAllLinks (opts : Options) (w : CheckWorld) : LinkMapSet :=
  { samePage := count (if opts.samePage then w.samePageLinks else [])
  , sameSite := count (if opts.sameSite then w.sameSiteLinks else [])
  , offSite := count (if opts.offSite then w.offSiteLinks else []) }

/-- `yield { ...res, type }` — attach the category tag to a validator's
entries. -/
def tagEntries (ty : EntryType) (es : List BareEntry) : List Entry :=
  es.map fun e => ⟨e.input, e.output, ty⟩

/-- The try block of `checkLinks` (src/unnamed/part_001 lines 45-62):
entries yielded in order, and the error (if any) caught by the
`catch (error) { caughtError = error; }` clause. A seed failure yields
nothing; a same-page query rejection aborts after the same-page entries
yielded so far; otherwise the three categories are yielded in the fixed
order same-page, same-site, off-site. -/
def bodyRun (opts : Options) (url : String) (w : CheckWorld) :
    List Entry × Option JsError :=
  match seedCheck url w.seedNav with
  | .error e => ([], some e)
  | .ok _ =>
    let links := getAllLinks opts w
    let sp := checkSamePageLinks w.samePageQuery links.samePage
    match sp.2 with
    | .raised e => (tagEntries .samePage sp.1, some e)
    | .done =>
      let ss := checkOffPageLinks opts w.linkWorld w.urlHash links.sameSite
      let os := checkOffPageLinks opts w.linkWorld w.urlHash links.offSite
      (tagEntries .samePage sp.1
          ++ tagEntries .sameSite ss ++ tagEntries .offSite os,
        none)

/-- Caller-observable events of one `checkLinks` run: an entry delivered by
the generator, the browser being closed, and an error thrown to the
consumer. -/
inductive Event where
  | emit (e : Entry)
  | closeBrowser
  | raise (e : JsError)
deriving DecidableEq

/-- `checkLinks` (src/unnamed/part_001 lines 35-69) as its trace of
observable events: the entries are yielded, then the `finally` clause runs
`await browser.close()` exactly once, then `if (caughtError) throw
caughtError` rethrows the captured error (teardown precedes propagation). -/
def checkLinksEvents (opts : Options) (url : String) (w : CheckWorld) :
    List Event :=
  let r := bodyRun opts url w
  r.1.map Event.emit ++ [Event.closeBrowser]
    ++ (match r.2 with | some e => [Event.raise e] | none => [])

/-- The entries emitted by one `checkLinks` run. -/
def checkLinksEntries (opts : Options) (url : String) (w : CheckWorld) :
    List Entry :=
  (bodyRun opts url w).1

/-! ## Concurrency-limited worker pool

Modelled from the spec: the bounded worker pool required by §4.3/§6 is
absent from the source — src/unnamed/part_001 line 115 carries only the
comment `// TODO: limit concurrency`, and the CLI declares a
`--concurrency` option (src/unnamed/part_003 line 37) that the library
never reads. The model below follows the spec's words: an admission gate
that starts a pending validation task (opening one browsing context) only
while fewer than `limit` contexts are open; a finishing task closes its
context. -/

/-- Modelled from the spec: the state of off-page validation under a worker
pool — tasks not yet admitted, tasks currently running (= browsing contexts
open, one per task), and tasks finished. -/
structure PoolState where
  pending : Nat
  running : Nat
  done : Nat
deriving DecidableEq

/-- Modelled from the spec: one scheduler step of the bounded pool. A task
is started only when the number of open contexts is below the configured
limit; a running task may finish at any time, closing its context. -/
inductive PoolStep (limit : Nat) : PoolState → PoolState → Prop where
  | start (p r d : Nat) : r < limit →
      PoolStep limit ⟨p + 1, r, d⟩ ⟨p, r + 1, d⟩
  | finish (p r d : Nat) :
      PoolStep limit ⟨p, r + 1, d⟩ ⟨p, r, d + 1⟩

/-- Modelled from the spec: states reachable while validating `M` unique
targets, starting from all `M` pending and no context open. -/
inductive PoolReach (limit M : Nat) : PoolState → Prop where
  | init : PoolReach limit M ⟨M, 0, 0⟩
  | step {s t : PoolState} : PoolReach limit M s → PoolStep limit s t →
      PoolReach limit M t

/-! ## Concrete worlds used by witnesses and counterexamples -/

/-- A page on which every fragment query resolves to an element. -/
def okQuery : String → Except JsError Bool := fun _ => .ok true

/-- A page on which the fragment query's promise rejects (e.g. a malformed
id yielding an invalid CSS selector). -/
def badQuery : String → Except JsError Bool := fun _ =>
  .error ⟨"invalid selector"⟩

/-- A link target that loads fine and has every fragment. -/
def okLinkWorld : LinkWorld :=
  ⟨.completed (some ⟨200⟩), okQuery⟩

/-- All four category options on (the library defaults). -/
def optsAll : Options := ⟨true, true, true, true⟩

/-- Like the defaults but with fragment checking off. -/
def optsNoFrag : Options := ⟨true, true, true, false⟩

/-- A run whose seed page loads with HTTP 200, carries the same-page link
`#a` once, no same-site links, and the off-site link `https://e/x` once;
all queries succeed and the off-site target loads fine. -/
def wMix : CheckWorld :=
  { seedNav := .completed (some ⟨200⟩)
  , samePageLinks := ["#a"]
  , sameSiteLinks := []
  , offSiteLinks := ["https://e/x"]
  , samePageQuery := okQuery
  , linkWorld := fun _ => okLinkWorld
  , urlHash := fun _ => "" }

/-- A run with duplicate raw links in every category, for the ordering
claims: raw same-page list `[#a, #b, #a]`, same-site `[s1, s2, s1]`,
off-site `[o1]`. -/
def wDup : CheckWorld :=
  { seedNav := .completed (some ⟨200⟩)
  , samePageLinks := ["#a", "#b", "#a"]
  , sameSiteLinks := ["https://s/1", "https://s/2", "https://s/1"]
  , offSiteLinks := ["https://o/1"]
  , samePageQuery := okQuery
  , linkWorld := fun _ => okLinkWorld
  , urlHash := fun _ => "" }

/-- A run whose seed page carries the same-page link `#a b` (a malformed id
producing an invalid selector: its query rejects). -/
def wFragFail : CheckWorld :=
  { seedNav := .completed (some ⟨200⟩)
  , samePageLinks := ["#a b"]
  , sameSiteLinks := []
  , offSiteLinks := []
  , samePageQuery := badQuery
  , linkWorld := fun _ => okLinkWorld
  , urlHash := fun _ => "" }

/-- A run whose seed navigation throws (e.g. DNS failure). -/
def wThrown : CheckWorld :=
  { seedNav := .thrown ⟨"net::ERR_NAME_NOT_RESOLVED"⟩
  , samePageLinks := ["#a"]
  , sameSiteLinks := ["https://s/1"]
  , offSiteLinks := ["https://o/1"]
  , samePageQuery := okQuery
  , linkWorld := fun _ => okLinkWorld
  , urlHash := fun _ => "" }

/-- A run whose seed navigation completes with HTTP 404. -/
def w404 : CheckWorld :=
  { seedNav := .completed (some ⟨404⟩)
  , samePageLinks := ["#a"]
  , sameSiteLinks := ["https://s/1"]
  , offSiteLinks := ["https://o/1"]
  , samePageQuery := okQuery
  , linkWorld := fun _ => okLinkWorld
  , urlHash := fun _ => "" }

/-! ## Lemmas about the Deduplicator/Counter -/

theorem sum_bump {α : Type} [DecidableEq α] (m : List (α × Nat)) (a : α) :
    ((bump m a).map Prod.snd).sum = (m.map Prod.snd).sum + 1 := by
  induction m with
  | nil => simp [bump]
  | cons p rest ih =>
    obtain ⟨k, n⟩ := p
    by_cases h : k = a
    · simp [bump, h]
      omega
    · simp [bump, h, ih]
      omega

theorem keys_bump {α : Type} [DecidableEq α] (m : List (α × Nat)) (a : α) :
    (bump m a).map Prod.fst =
      if a ∈ m.map Prod.fst then m.map Prod.fst
      else m.map Prod.fst ++ [a] := by
  induction m with
  | nil => simp [bump]
  | cons p rest ih =>
    obtain ⟨k, n⟩ := p
    by_cases h : k = a
    · simp [bump, h]
    · by_cases h2 : a ∈ rest.map Prod.fst
      · simp [bump, h, ih, h2, Ne.symm h]
      · simp [bump, h, ih, h2, Ne.symm h]

theorem mapGet_bump {α : Type} [DecidableEq α] (m : List (α × Nat))
    (a b : α) :
    mapGet (bump m b) a = mapGet m a + (if a = b then 1 else 0) := by
  induction m with
  | nil =>
    by_cases h : a = b <;> simp [bump, mapGet, h, eq_comm]
  | cons p rest ih =>
    obtain ⟨k, n⟩ := p
    by_cases hk : k = b
    · subst hk
      by_cases ha : k = a
      · subst ha
        simp [bump, mapGet]
      · simp [bump, mapGet, ha, Ne.symm ha]
    · by_cases ha : k = a
      · subst ha
        simp [bump, mapGet, hk, Ne.symm hk]
      · simp [bump, mapGet, hk, ha, ih]

theorem sum_count_foldl {α : Type} [DecidableEq α] (l : List α)
    (acc : List (α × Nat)) :
    ((l.foldl bump acc).map Prod.snd).sum =
      (acc.map Prod.snd).sum + l.length := by
  induction l generalizing acc with
  | nil => simp
  | cons a l ih =>
    simp only [List.foldl_cons, ih, sum_bump, List.length_cons]
    omega

theorem keys_count_foldl {α : Type} [DecidableEq α] (l : List α)
    (acc : List (α × Nat)) :
    (l.foldl bump acc).map Prod.fst =
      l.foldl (fun ks a => if a ∈ ks then ks else ks ++ [a])
        (acc.map Prod.fst) := by
  induction l generalizing acc with
  | nil => rfl
  | cons a l ih =>
    simp only [List.foldl_cons, ih, keys_bump]

/-- The key order of the `count` map is first-occurrence order. -/
theorem keys_count {α : Type} [DecidableEq α] (l : List α) :
    (count l).map Prod.fst = firstOccurrences l := by
  simpa using keys_count_foldl l []

theorem mem_firstOccAux {α : Type} [DecidableEq α] (l : List α)
    (acc : List α) (x : α) :
    (x ∈ l.foldl (fun ks a => if a ∈ ks then ks else ks ++ [a]) acc) ↔
      x ∈ acc ∨ x ∈ l := by
  induction l generalizing acc with
  | nil => simp
  | cons a l ih =>
    simp only [List.foldl_cons, ih, List.mem_cons]
    by_cases h : a ∈ acc
    · simp only [h, if_pos]
      constructor
      · rintro (hx | hx)
        · exact Or.inl hx
        · exact Or.inr (Or.inr hx)
      · rintro (hx | rfl | hx)
        · exact Or.inl hx
        · exact Or.inl h
        · exact Or.inr hx
    · simp only [h, if_neg, not_false_iff, List.mem_append,
        List.mem_singleton]
      constructor
      · rintro ((hx | hx) | hx)
        · exact Or.inl hx
        · exact Or.inr (Or.inl hx)
        · exact Or.inr (Or.inr hx)
      · rintro (hx | hx | hx)
        · exact Or.inl (Or.inl hx)
        · exact Or.inl (Or.inr hx)
        · exact Or.inr hx

theorem nodup_firstOccAux {α : Type} [DecidableEq α] (l : List α)
    (acc : List α) (h : acc.Nodup) :
    (l.foldl (fun ks a => if a ∈ ks then ks else ks ++ [a]) acc).Nodup := by
  induction l generalizing acc with
  | nil => simpa
  | cons a l ih =>
    simp only [List.foldl_cons]
    by_cases ha : a ∈ acc
    · simpa [ha] using ih acc h
    · have h2 : (acc ++ [a]).Nodup := by
        simp [List.nodup_append, h, ha]
      simpa [ha] using ih _ h2

theorem nodup_firstOccurrences {α : Type} [DecidableEq α] (l : List α) :
    (firstOccurrences l).Nodup :=
  nodup_firstOccAux l [] (by simp)

theorem firstOccurrences_toFinset {α : Type} [DecidableEq α] (l : List α) :
    (firstOccurrences l).toFinset = l.toFinset := by
  ext x
  simp [firstOccurrences, List.mem_toFinset, mem_firstOccAux]

theorem mapGet_count_foldl {α : Type} [DecidableEq α] (l : List α)
    (acc : List (α × Nat)) (a : α) :
    mapGet (l.foldl bump acc) a = mapGet acc a + l.count a := by
  induction l generalizing acc with
  | nil => simp
  | cons b l ih =>
    simp only [List.foldl_cons, ih, mapGet_bump]
    by_cases h : a = b <;> (simp [h, List.count_cons]; try omega)

/-- The count recorded for a key is its number of occurrences in the raw
list. -/
theorem mapGet_count {α : Type} [DecidableEq α] (l : List α) (a : α) :
    mapGet (count l) a = l.count a := by
  simpa [count, mapGet] using mapGet_count_foldl l [] a

/-! ## Lemmas about the validators -/

theorem offPage_links_map (opts : Options) (world : String → LinkWorld)
    (hashOf : String → String) (links : List (String × Nat)) :
    (checkOffPageLinks opts world hashOf links).map (fun e => e.input.link) =
      links.map Prod.fst := by
  simp [checkOffPageLinks, List.map_map, Function.comp]

theorem offPage_counts_map (opts : Options) (world : String → LinkWorld)
    (hashOf : String → String) (l : List String) :
    (checkOffPageLinks opts world hashOf (count l)).map
        (fun e => e.input.count) =
      ((count l).map Prod.fst).map (fun k => l.count k) := by
  have h : (fun link => mapGet (count l) link) = fun k => l.count k :=
    funext (mapGet_count l)
  simp [checkOffPageLinks, List.map_map, Function.comp, h]

/-- C7: deduplication is count-preserving — the per-key counts of the
`count` map sum to the raw list's length, the keys are distinct and as many
as the raw list's distinct elements — and `checkOffPageLinks` emits exactly
one entry per unique key (one `isLinkValid` call per unique target, so a
target occurring N times is validated once), whose `count` is the number of
raw occurrences of that target. -/
theorem dedup_and_single_validation (l : List String) (opts : Options)
    (world : String → LinkWorld) (hashOf : String → String) :
    ((count l).map Prod.snd).sum = l.length ∧
    ((count l).map Prod.fst).Nodup ∧
    ((count l).map Prod.fst).length = l.toFinset.card ∧
    (checkOffPageLinks opts world hashOf (count l)).map
        (fun e => e.input.link) = (count l).map Prod.fst ∧
    (checkOffPageLinks opts world hashOf (count l)).map
        (fun e => e.input.count) =
      ((count l).map Prod.fst).map (fun k => l.count k) := by
  refine ⟨?_, ?_, ?_, offPage_links_map .., offPage_counts_map ..⟩
  · simpa [count] using sum_count_foldl l []
  · rw [keys_count]
    exact nodup_firstOccurrences l
  · rw [keys_count]
    rw [← firstOccurrences_toFinset l,
      List.toFinset_card_of_nodup (nodup_firstOccurrences l)]

/-! ## Severity classifier -/

/-- C1: `getResultType` is a pure function of (outcome, category, policy)
equal, on every well-formed outcome (`pageExists` present whenever `error`
is absent, as the validators guarantee), to the classifier that applies the
spec §4.4 rules in order — error present always yields `err` whatever the
policy (including `ignore`, mapped to membership in neither the `errorIf`
nor the `warnIf` set); otherwise page-existence failure under an `err`
policy, then fragment-existence failure under an `err` fragments policy,
then the same two checks at the `warn` tier; otherwise `ok`. -/
theorem getResultType_matches_spec_rules (o : Output) (ty : EntryType)
    (policy : PolicyKey → Policy) (hwf : o.wf) :
    getResultType o ty (fun k => policy k == .err)
        (fun k => policy k == .warn) =
      specSeverity o ty policy := by
  cases herr : o.error with
  | some e => simp [getResultType, specSeverity, herr]
  | none =>
    obtain ⟨b, hb⟩ := Option.isSome_iff_exists.mp (hwf herr)
    cases hfr : o.fragExists with
    | none =>
      cases hp : policy ty.key <;> cases hq : policy .fragments <;>
        cases b <;>
        simp [getResultType, specSeverity, herr, hb, hfr, hp, hq]
    | some fb =>
      cases hp : policy ty.key <;> cases hq : policy .fragments <;>
        cases b <;> cases fb <;>
        simp [getResultType, specSeverity, herr, hb, hfr, hp, hq]

/-- Witness for C1: an error outcome under an all-`ignore` policy. -/
theorem getResultType_matches_spec_rules_witness :
    getResultType ⟨none, none, some ⟨"boom"⟩⟩ .offSite
        (fun k => (fun _ => Policy.ignore) k == .err)
        (fun k => (fun _ => Policy.ignore) k == .warn) =
      specSeverity ⟨none, none, some ⟨"boom"⟩⟩ .offSite
        (fun _ => Policy.ignore) :=
  getResultType_matches_spec_rules ⟨none, none, some ⟨"boom"⟩⟩ .offSite
    (fun _ => Policy.ignore) (by intro h; simp at h)

/-! ## Same-page validator lemmas -/

theorem sp_done_links (q : String → Except JsError Bool)
    (m : List (String × Nat))
    (h : (checkSamePageLinks q m).2 = .done) :
    (checkSamePageLinks q m).1.map (fun e => e.input.link) =
      (m.map Prod.fst).filter (fun l => decide (1 < l.length)) := by
  induction m with
  | nil => simp [checkSamePageLinks]
  | cons p rest ih =>
    obtain ⟨link, cnt⟩ := p
    by_cases hl : link.length ≤ 1
    · have hnot : ¬1 < link.length := by omega
      simp only [checkSamePageLinks, if_pos hl] at h ⊢
      simp only [List.map_cons, List.filter_cons,
        decide_eq_true_eq]
      rw [if_neg hnot]
      exact ih h
    · have hlt : 1 < link.length := by omega
      cases hq : isFragmentValid q link with
      | error e =>
        simp [checkSamePageLinks, if_neg hl, hq] at h
      | ok b =>
        simp only [checkSamePageLinks, if_neg hl, hq] at h ⊢
        simp only [List.map_cons, List.filter_cons,
          decide_eq_true_eq]
        rw [if_pos hlt]
        simpa using ih h

theorem sp_output_shape (q : String → Except JsError Bool)
    (m : List (String × Nat)) (e : BareEntry)
    (he : e ∈ (checkSamePageLinks q m).1) :
    ∃ b, e.output =
      { pageExists := some true, fragExists := some b, error := none } := by
  induction m with
  | nil => simp [checkSamePageLinks] at he
  | cons p rest ih =>
    obtain ⟨link, cnt⟩ := p
    by_cases hl : link.length ≤ 1
    · simp only [checkSamePageLinks, if_pos hl] at he
      exact ih he
    · cases hq : isFragmentValid q link with
      | error er =>
        simp [checkSamePageLinks, if_neg hl, hq] at he
      | ok b =>
        simp only [checkSamePageLinks, if_neg hl, hq, List.mem_cons] at he
        rcases he with rfl | he
        · exact ⟨b, rfl⟩
        · exact ih he

/-! ## Off-page validator and merge lemmas -/

theorem isLinkValid_no_frag (opts : Options) (hash : String)
    (w : LinkWorld) (h : opts.fragments = false) :
    (isLinkValid opts hash w).fragExists = none := by
  cases hnav : w.nav with
  | thrown e => simp [isLinkValid, hnav]
  | completed resp => simp [isLinkValid, hnav, h]

theorem mem_tagEntries (ty : EntryType) (es : List BareEntry) (e : Entry)
    (he : e ∈ tagEntries ty es) :
    e.type = ty ∧ ∃ b ∈ es, e.output = b.output := by
  simp only [tagEntries, List.mem_map] at he
  obtain ⟨b, hb, rfl⟩ := he
  exact ⟨rfl, b, hb, rfl⟩

theorem offPage_mem_output (opts : Options) (world : String → LinkWorld)
    (hashOf : String → String) (links : List (String × Nat))
    (b : BareEntry) (hb : b ∈ checkOffPageLinks opts world hashOf links) :
    ∃ link, b.output = isLinkValid opts (hashOf link) (world link) := by
  simp only [checkOffPageLinks, List.mem_map] at hb
  obtain ⟨link, hl, rfl⟩ := hb
  exact ⟨link, rfl⟩

theorem tag_map_typeLink (ty : EntryType) (es : List BareEntry) :
    (tagEntries ty es).map (fun e => (e.type, e.input.link)) =
      (es.map (fun e => e.input.link)).map (fun l => (ty, l)) := by
  simp [tagEntries, List.map_map, Function.comp]

/-! ## Claim C2: navigation-result classification and the status field -/

/-- C2: `isLinkValid` classifies every off-page navigation into exactly the
three cases — completion with a 2xx response or with no response object
yields `pageExists = true`, completion with a non-success status yields
`pageExists = false`, and a thrown navigation yields an `error`-only
outcome with no `pageExists` field, distinct from the `pageExists = false`
outcome. However, contrary to the claim (and to the README and the CLI
formatters, which read `output.status`), no `statusCode` is recorded in any
case: the output record at the failing input HTTP 404 is exactly
`{pageExists: false}` — the `Output` type has no status field at all. -/
theorem isLinkValid_classification_no_statusCode :
    isLinkValid optsAll "" ⟨.completed (some ⟨404⟩), okQuery⟩ =
      { pageExists := some false, fragExists := none, error := none } ∧
    isLinkValid optsAll "" ⟨.completed (some ⟨200⟩), okQuery⟩ =
      { pageExists := some true, fragExists := none, error := none } ∧
    isLinkValid optsAll "" ⟨.completed none, okQuery⟩ =
      { pageExists := some true, fragExists := none, error := none } ∧
    isLinkValid optsAll "" ⟨.thrown ⟨"net::ERR_TIMED_OUT"⟩, okQuery⟩ =
      { pageExists := none, fragExists := none,
        error := some ⟨"net::ERR_TIMED_OUT"⟩ } ∧
    isLinkValid optsAll "" ⟨.thrown ⟨"net::ERR_TIMED_OUT"⟩, okQuery⟩ ≠
      isLinkValid optsAll "" ⟨.completed (some ⟨404⟩), okQuery⟩ :=
  ⟨rfl, rfl, rfl, rfl, by decide⟩

/-! ## Claim C3: same-page query failures escape to the caller -/

/-- C3: contrary to the claim, a failing same-page fragment query is NOT
contained inside the Same-Page Validator: `isFragmentValid` returns the
`page.$eval` promise without awaiting it, so its `catch` never fires and
the rejection aborts the run. On a seed page whose only same-page link is
`#a b` (a malformed id producing an invalid selector, so the query
rejects), the caller of `checkLinks` observes zero entries and the query
error thrown after browser teardown. -/
theorem fragment_query_failure_reaches_caller :
    checkLinksEvents optsAll "https://seed/" wFragFail =
      [.closeBrowser, .raise ⟨"invalid selector"⟩] := rfl

/-! ## Claim C4: scope of the fragments option -/

/-- C4 counterexample: with `fragments = false` and a seed page carrying
the same-page link `#a` (whose anchor exists), the emitted same-page entry
still has `fragExists` set (to `some true`) — refuting the claim that with
fragment checking disabled no emitted entry of any category has
`fragmentExists` set. -/
theorem fragments_disabled_samePage_still_sets_fragExists :
    optsNoFrag.fragments = false ∧
    (checkLinksEntries optsNoFrag "https://seed/" wMix).map
        (fun e => (e.type, e.output.fragExists)) =
      [(.samePage, some true), (.offSite, none)] := by
  exact ⟨rfl, rfl⟩

/-- C4 (amended): when `fragments = false`, no emitted same-site or
off-site entry has `fragExists` set; same-page entries are unaffected by
the option (which, per its doc comment, governs only fragment links
outside the current page) and always carry a `fragExists` boolean. -/
theorem fragments_flag_scope (opts : Options) (url : String)
    (w : CheckWorld) (h : opts.fragments = false) :
    (∀ e ∈ checkLinksEntries opts url w,
        (e.type = .sameSite ∨ e.type = .offSite) →
          e.output.fragExists = none) ∧
    (∀ e ∈ checkLinksEntries opts url w,
        e.type = .samePage → (e.output.fragExists).isSome) := by
  unfold checkLinksEntries bodyRun
  cases hseed : seedCheck url w.seedNav with
  | error er => simp [hseed]
  | ok u =>
    simp only [hseed]
    cases hsp : (checkSamePageLinks w.samePageQuery
        (getAllLinks opts w).samePage).2 with
    | raised er =>
      simp only [hsp]
      constructor
      · intro e he hty
        obtain ⟨htype, -⟩ := mem_tagEntries _ _ _ he
        rw [htype] at hty
        rcases hty with h1 | h1 <;> exact absurd h1 (by decide)
      · intro e he _
        obtain ⟨-, b, hb, hout⟩ := mem_tagEntries _ _ _ he
        obtain ⟨fb, hfb⟩ := sp_output_shape _ _ _ hb
        rw [hout, hfb]
        rfl
    | done =>
      simp only [hsp]
      constructor
      · intro e he hty
        rw [List.mem_append, List.mem_append] at he
        rcases he with (he | he) | he
        · obtain ⟨htype, -⟩ := mem_tagEntries _ _ _ he
          rw [htype] at hty
          rcases hty with h1 | h1 <;> exact absurd h1 (by decide)
        · obtain ⟨-, b, hb, hout⟩ := mem_tagEntries _ _ _ he
          obtain ⟨link, hl⟩ := offPage_mem_output _ _ _ _ _ hb
          rw [hout, hl]
          exact isLinkValid_no_frag _ _ _ h
        · obtain ⟨-, b, hb, hout⟩ := mem_tagEntries _ _ _ he
          obtain ⟨link, hl⟩ := offPage_mem_output _ _ _ _ _ hb
          rw [hout, hl]
          exact isLinkValid_no_frag _ _ _ h
      · intro e he hty
        rw [List.mem_append, List.mem_append] at he
        rcases he with (he | he) | he
        · obtain ⟨-, b, hb, hout⟩ := mem_tagEntries _ _ _ he
          obtain ⟨fb, hfb⟩ := sp_output_shape _ _ _ hb
          rw [hout, hfb]
          rfl
        · obtain ⟨htype, -⟩ := mem_tagEntries _ _ _ he
          rw [htype] at hty
          exact absurd hty (by decide)
        · obtain ⟨htype, -⟩ := mem_tagEntries _ _ _ he
          rw [htype] at hty
          exact absurd hty (by decide)

/-- Witness for C4 (amended), at a run with one same-page and one off-site
link under `fragments = false`. -/
theorem fragments_flag_scope_witness :
    (∀ e ∈ checkLinksEntries optsNoFrag "https://seed/" wMix,
        (e.type = .sameSite ∨ e.type = .offSite) →
          e.output.fragExists = none) ∧
    (∀ e ∈ checkLinksEntries optsNoFrag "https://seed/" wMix,
        e.type = .samePage → (e.output.fragExists).isSome) :=
  fragments_flag_scope optsNoFrag "https://seed/" wMix rfl

/-! ## Claim C5: emission order -/

/-- C5: whenever a run reaches its emission phase (seed navigation
succeeded and the same-page pass did not abort), the emitted
(category, link) sequence is exactly: the same-page unique targets in
first-occurrence order of the raw extraction (those longer than `#`),
then the same-site unique targets in first-occurrence order, then the
off-site unique targets in first-occurrence order — the three categories
in that fixed order, and never in completion order (the order depends only
on the raw lists, not on the validation oracles). -/
theorem checkLinks_emission_order (opts : Options) (url : String)
    (w : CheckWorld)
    (hseed : seedCheck url w.seedNav = .ok ())
    (hsp : (checkSamePageLinks w.samePageQuery
        (getAllLinks opts w).samePage).2 = .done) :
    (checkLinksEntries opts url w).map (fun e => (e.type, e.input.link)) =
      ((firstOccurrences
            (if opts.samePage then w.samePageLinks else [])).filter
          (fun l => decide (1 < l.length))).map
          (fun l => (EntryType.samePage, l))
        ++ (firstOccurrences
            (if opts.sameSite then w.sameSiteLinks else [])).map
          (fun l => (EntryType.sameSite, l))
        ++ (firstOccurrences
            (if opts.offSite then w.offSiteLinks else [])).map
          (fun l => (EntryType.offSite, l)) := by
  unfold checkLinksEntries bodyRun
  simp only [hseed, hsp]
  rw [List.map_append, List.map_append, tag_map_typeLink, tag_map_typeLink,
    tag_map_typeLink, sp_done_links _ _ hsp, offPage_links_map,
    offPage_links_map]
  simp only [getAllLinks, keys_count]

/-- Witness for C5: a run whose raw link lists contain duplicates in every
category. -/
theorem checkLinks_emission_order_witness :
    (checkLinksEntries optsAll "https://seed/" wDup).map
        (fun e => (e.type, e.input.link)) =
      ((firstOccurrences
            (if optsAll.samePage then wDup.samePageLinks else [])).filter
          (fun l => decide (1 < l.length))).map
          (fun l => (EntryType.samePage, l))
        ++ (firstOccurrences
            (if optsAll.sameSite then wDup.sameSiteLinks else [])).map
          (fun l => (EntryType.sameSite, l))
        ++ (firstOccurrences
            (if optsAll.offSite then wDup.offSiteLinks else [])).map
          (fun l => (EntryType.offSite, l)) :=
  checkLinks_emission_order optsAll "https://seed/" wDup rfl rfl

/-! ## Claim C6: timing of off-page emission -/

theorem init_le_foldl_max (l : List Nat) (init : Nat) :
    init ≤ l.foldl Nat.max init := by
  induction l generalizing init with
  | nil => exact Nat.le_refl _
  | cons b l ih =>
    exact Nat.le_trans (Nat.le_max_left init b) (ih (Nat.max init b))

theorem mem_le_foldl_max (l : List Nat) (init a : Nat) (ha : a ∈ l) :
    a ≤ l.foldl Nat.max init := by
  induction l generalizing init with
  | nil => cases ha
  | cons b l ih =>
    rcases List.mem_cons.mp ha with rfl | ha
    · exact Nat.le_trans (Nat.le_max_right init a)
        (init_le_foldl_max l (Nat.max init a))
    · exact ih (Nat.max init b) ha

/-- C6 counterexample: with two unique targets whose validations complete
at times 1 and 10 (all promises started together), entry 0 is emitted at
time 1 — before the second validation completes at time 10 — so the
category is not batch-collected before emission. -/
theorem entry_emitted_before_slowest_validation :
    emitTime [1, 10] 0 = 1 ∧ emitTime [1, 10] 1 = 10 ∧
      emitTime [1, 10] 0 < 10 := by
  decide

/-- C6 (amended): entry `i` of an off-page category is emitted only once
the validations of unique targets `0..i` have all completed (the loop
awaits the up-front-started promises in first-occurrence order), and the
category as a whole completes only when its slowest validation finishes —
the last entry's emission waits for every completion time. Emission is
therefore never in completion order, but it is prefix-streaming, not
batch-collected: an early entry may be emitted while a later validation is
still in flight. -/
theorem emitTime_gated (t : List Nat) (i j : Nat) (hi : i < t.length)
    (hj : j < t.length) :
    (j ≤ i → t.get ⟨j, hj⟩ ≤ emitTime t i) ∧
      t.get ⟨j, hj⟩ ≤ emitTime t (t.length - 1) := by
  constructor
  · intro hji
    apply mem_le_foldl_max
    have hjt : j < (t.take (i + 1)).length := by
      rw [List.length_take]
      omega
    have : (t.take (i + 1)).get ⟨j, hjt⟩ = t.get ⟨j, hj⟩ := by
      simp [List.get_take]
    rw [← this]
    exact List.get_mem _ _ _
  · have hlen : t.length - 1 + 1 = t.length := by omega
    unfold emitTime
    rw [hlen, List.take_length]
    exact mem_le_foldl_max t 0 _ (List.get_mem _ _ _)

/-- Witness for C6 (amended), at completion times `[1, 10]`. -/
theorem emitTime_gated_witness :
    (0 ≤ 1 → [1, 10].get ⟨0, by decide⟩ ≤ emitTime [1, 10] 1) ∧
      [1, 10].get ⟨0, by decide⟩ ≤
        emitTime [1, 10] ([1, 10].length - 1) :=
  emitTime_gated [1, 10] 1 0 (by decide) (by decide)

/-! ## Claims C8 and C10: seed-navigation failure is fatal -/

theorem events_of_seedFail (opts : Options) (url : String) (w : CheckWorld)
    (e : JsError) (h : seedCheck url w.seedNav = .error e) :
    checkLinksEvents opts url w = [.closeBrowser, .raise e] := by
  unfold checkLinksEvents bodyRun
  simp [h]

/-- C8: if seed navigation fails, the run is fatal — the caller-observable
trace is exactly `[closeBrowser, raise e]`: zero entries are emitted (so no
category is processed), the browser is closed exactly once, and the
teardown event precedes the error's propagation. -/
theorem seed_failure_fatal (opts : Options) (url : String) (w : CheckWorld)
    (e : JsError) (h : seedCheck url w.seedNav = .error e) :
    checkLinksEvents opts url w = [.closeBrowser, .raise e] :=
  events_of_seedFail opts url w e h

/-- Witness for C8: a seed navigation that throws a DNS error. -/
theorem seed_failure_fatal_witness :
    checkLinksEvents optsAll "https://seed/" wThrown =
      [.closeBrowser, .raise ⟨"net::ERR_NAME_NOT_RESOLVED"⟩] :=
  seed_failure_fatal optsAll "https://seed/" wThrown
    ⟨"net::ERR_NAME_NOT_RESOLVED"⟩ rfl

/-- C10: a seed navigation that completes with a non-success status, or
with no response object at all, is treated exactly like a thrown seed
navigation error: `checkLinks` raises a `Failed to navigate` error (with
the HTTP status appended when a response exists), emits zero entries, and
closes the browser before the error propagates. -/
theorem seed_http_failure_fatal (opts : Options) (url : String)
    (w : CheckWorld) :
    (∀ r : NavResponse, w.seedNav = .completed (some r) → r.ok = false →
      checkLinksEvents opts url w =
        [.closeBrowser, .raise ⟨"Failed to navigate to " ++ url ++
          ". HTTP " ++ toString r.status⟩]) ∧
    (w.seedNav = .completed none →
      checkLinksEvents opts url w =
        [.closeBrowser, .raise ⟨"Failed to navigate to " ++ url⟩]) := by
  constructor
  · intro r hnav hok
    apply events_of_seedFail
    rw [hnav]
    simp [seedCheck, hok]
  · intro hnav
    apply events_of_seedFail
    rw [hnav]
    rfl

/-- Witness for C10: a seed page answering HTTP 404. -/
theorem seed_http_failure_fatal_witness :
    checkLinksEvents optsAll "https://seed/" w404 =
      [.closeBrowser, .raise ⟨"Failed to navigate to " ++ "https://seed/"
        ++ ". HTTP " ++ toString (404 : Nat)⟩] :=
  (seed_http_failure_fatal optsAll "https://seed/" w404).1 ⟨404⟩ rfl rfl

/-! ## Claim C9: the concurrency bound -/

/-- C9: in the spec-modelled bounded worker pool, every state reachable
while validating `M` unique targets under `concurrencyLimit = limit` has at
most `limit` browsing contexts open — validation is gated by the admission
rule, so even with `M > limit` targets the in-flight context count never
exceeds the configured bound. -/
theorem pool_never_exceeds_limit (limit M : Nat) (s : PoolState)
    (h : PoolReach limit M s) : s.running ≤ limit := by
  induction h with
  | init => exact Nat.zero_le _
  | step hr hs ih =>
    cases hs with
    | start p r d hlt => exact hlt
    | finish p r d => exact Nat.le_of_succ_le ih

/-- Witness for C9: with limit 2 and 3 targets, the state reached after
admitting two tasks is within the bound. -/
theorem pool_never_exceeds_limit_witness :
    (⟨1, 2, 0⟩ : PoolState).running ≤ 2 :=
  pool_never_exceeds_limit 2 3 ⟨1, 2, 0⟩
    (.step (.step .init (.start 2 0 0 (by decide))) (.start 1 1 0 (by decide)))

end HrefChecker
